import Mathlib

/-!
Verification of the DocFlow job-orchestration layer.

The frontend client (the upload modal's polling loop, its API client types,
and the legacy API client) is embedded directly from the TypeScript source.
The backend Job Manager (job store, worker transitions, submit / get-status /
cancel) is not part of the available source tree, so it is modelled from the
specification's data model and state machine and marked as such on each
definition.
-/

namespace DocFlow

/-- The five job status values of the `status` union in the frontend API
client's `JobStatus` type. -/
inductive JobStatusV
  | pending
  | processing
  | completed
  | failed
  | cancelled
deriving DecidableEq

/-- The four status values of the legacy API client's `JobStatus` interface
(which lacks `cancelled`). -/
inductive LegacyJobStatusV
  | pending
  | processing
  | completed
  | failed
deriving DecidableEq

/-- Each legacy status value read as one of the five current status values. -/
def LegacyJobStatusV.toStatus : LegacyJobStatusV → JobStatusV
  | .pending => .pending
  | .processing => .processing
  | .completed => .completed
  | .failed => .failed

/-- A status is terminal when it is completed, failed or cancelled. -/
def JobStatusV.isTerminal : JobStatusV → Bool
  | .completed => true
  | .failed => true
  | .cancelled => true
  | _ => false

/-- The extraction engine's output as the client reads it: an object whose
`contract_data` member holds the extracted fields. -/
structure ExtractResult where
  contract_data : List (String × String)
deriving DecidableEq

/-- Modelled from the spec: the Job Record, the unit of extraction work ---
id, status, progress, message, result, error, timestamps and the cooperative
`cancelRequested` flag. -/
structure JobRecord where
  id : String
  status : JobStatusV
  progress : Int
  message : String
  result : Option ExtractResult
  error : Option String
  created_at : Option String
  started_at : Option String
  completed_at : Option String
  cancelRequested : Bool
deriving DecidableEq

/-- Modelled from the spec: the Job Record freshly created at submission:
status pending, progress 0, no result, no error, no start or completion
timestamp, cancellation not requested. -/
def initialJob (id : String) (now : String) : JobRecord :=
  { id := id
    status := .pending
    progress := 0
    message := ""
    result := none
    error := none
    created_at := some now
    started_at := none
    completed_at := none
    cancelRequested := false }

/-- Modelled from the spec: the Job Store's registry, job identifiers mapped
to Job Records. -/
abbrev Store := List (String × JobRecord)

/-- Modelled from the spec: Job Store read, the record under the identifier
or a not-found outcome (`none`). -/
def Store.get : Store → String → Option JobRecord
  | [], _ => none
  | (k, j) :: rest, id => if k = id then some j else Store.get rest id

/-- Modelled from the spec: Job Store update-in-place, applying a mutation to
the record under the identifier. -/
def Store.update : Store → String → (JobRecord → JobRecord) → Store
  | [], _, _ => []
  | (k, j) :: rest, id, f =>
    if k = id then (k, f j) :: Store.update rest id f
    else (k, j) :: Store.update rest id f

/-- Modelled from the spec: the state machine governing one Job Record ---
`pending -> processing -> completed | failed | cancelled`, plus a pending job
cancelled before a worker claims it, best-effort progress updates while
processing, and the cancellation path that sets `cancelRequested`. -/
inductive JobStep : JobRecord → JobRecord → Prop
  | claim (j : JobRecord) (t : String) (h : j.status = .pending) :
      JobStep j { j with status := .processing, started_at := some t }
  | progressUpdate (j : JobRecord) (p : Int) (m : String)
      (h : j.status = .processing) (h1 : j.progress ≤ p) (h2 : p ≤ 100) :
      JobStep j { j with progress := p, message := m }
  | success (j : JobRecord) (r : ExtractResult) (t : String)
      (h : j.status = .processing) :
      JobStep j { j with status := .completed, result := some r,
                         progress := 100, completed_at := some t }
  | failure (j : JobRecord) (e : String) (t : String)
      (h : j.status = .processing) :
      JobStep j { j with status := .failed, error := some e,
                         completed_at := some t }
  | cancelPending (j : JobRecord) (t : String) (h : j.status = .pending) :
      JobStep j { j with status := .cancelled, completed_at := some t }
  | cancelProcessing (j : JobRecord) (t : String)
      (h : j.status = .processing) (hc : j.cancelRequested = true) :
      JobStep j { j with status := .cancelled, completed_at := some t }
  | requestCancel (j : JobRecord) (h : j.status.isTerminal = false) :
      JobStep j { j with cancelRequested := true }

/-- A Job Record is reachable when some sequence of lifecycle steps leads to
it from a freshly created record. -/
def Reachable (j : JobRecord) : Prop :=
  ∃ id now, Relation.ReflTransGen JobStep (initialJob id now) j

/-- Modelled from the spec: the outcome of the Cancel operation. -/
inductive CancelResult
  | ok
  | notFound
  | alreadyTerminal
deriving DecidableEq

/-- Modelled from the spec: `Cancel(jobID)` --- not-found for an unknown id,
`AlreadyTerminal` (leaving the store untouched) for a job already terminal,
otherwise sets `cancelRequested` through the Job Store's update. -/
def cancel (s : Store) (id : String) : CancelResult × Store :=
  match s.get id with
  | none => (.notFound, s)
  | some j =>
    if j.status.isTerminal then (.alreadyTerminal, s)
    else (.ok, s.update id (fun r => { r with cancelRequested := true }))

/-- Modelled from the spec: the errors Submit can reject with. -/
inductive SubmitError
  | invalidInput
  | resourceExhausted
deriving DecidableEq

/-- Modelled from the spec: the Job Manager's configuration --- document size
ceiling and admission ceiling on tracked jobs. -/
structure SubmitConfig where
  maxSize : Nat
  maxJobs : Nat
deriving DecidableEq

/-- Modelled from the spec: the Job Manager's state --- the Job Store, a
counter for fresh identifiers, and a count of extraction-engine invocations
(the engine runs only inside workers, never on the submit path). -/
structure ManagerState where
  store : Store
  nextId : Nat
  engineCalls : Nat
deriving DecidableEq

/-- A fresh job identifier from the identifier counter. -/
def freshId (n : Nat) : String := "job-" ++ toString n

/-- Modelled from the spec: `Submit(document)` --- rejects an empty document
or one above the size ceiling with `InvalidInput` and creates no job, rejects
past the admission ceiling with `ResourceExhausted`, otherwise stores a fresh
pending Job Record and returns its id at once, without invoking the
extraction engine. -/
def submit (cfg : SubmitConfig) (st : ManagerState) (doc : List Nat)
    (now : String) : Except SubmitError String × ManagerState :=
  if doc.length = 0 ∨ cfg.maxSize < doc.length then
    (.error .invalidInput, st)
  else if cfg.maxJobs ≤ st.store.length then
    (.error .resourceExhausted, st)
  else
    let id := freshId st.nextId
    (.ok id,
     { st with store := (id, initialJob id now) :: st.store,
               nextId := st.nextId + 1 })

/-- The job-status response record as declared by the frontend API client's
`JobStatus` type: job_id, status, progress and message, with optional result,
error and the three optional timestamps. -/
structure JobStatusResponse where
  job_id : String
  status : JobStatusV
  progress : Int
  message : String
  result : Option ExtractResult
  error : Option String
  created_at : Option String
  started_at : Option String
  completed_at : Option String
deriving DecidableEq

/-- The field names of the frontend API client's `JobStatus` response type,
in declaration order. -/
def jobStatusResponseFields : List String :=
  ["job_id", "status", "progress", "message", "result", "error",
   "created_at", "started_at", "completed_at"]

/-- The field names the spec's get-status contract enumerates for the
response record. -/
def specStatusFields : List String :=
  ["job_id", "status", "progress", "message", "result", "error"]

/-- Modelled from the spec: the status response built from a Job Record. -/
def toResponse (j : JobRecord) : JobStatusResponse :=
  { job_id := j.id
    status := j.status
    progress := j.progress
    message := j.message
    result := j.result
    error := j.error
    created_at := j.created_at
    started_at := j.started_at
    completed_at := j.completed_at }

/-- Modelled from the spec: `GetStatus(jobID)`, a pure read through the Job
Store --- the record's response for a known id, a not-found outcome (`none`)
for an unknown or expired one. -/
def getStatus (s : Store) (id : String) : Option JobStatusResponse :=
  (s.get id).map toResponse

/-- The upload modal's `UploadStep` union. -/
inductive UploadStep
  | upload
  | extracting
  | review
  | saving
  | success
  | error
deriving DecidableEq

/-- The upload modal's component state: the current step, the selected file,
the extracted data and its edited copy, the error message, the current job id
and last observed job status, the progress value, and whether the polling
interval is installed (`pollingIntervalRef.current` non-null). -/
structure ClientState where
  step : UploadStep
  file : Option String
  extractedData : Option ExtractResult
  editedData : List (String × String)
  errorMessage : String
  jobId : Option String
  jobStatus : Option JobStatusResponse
  progress : Int
  pollingActive : Bool
deriving DecidableEq

/-- The modal's initial component state from its `useState` initialisers. -/
def initialClientState : ClientState :=
  { step := .upload
    file := none
    extractedData := none
    editedData := []
    errorMessage := ""
    jobId := none
    jobStatus := none
    progress := 0
    pollingActive := false }

/-- One resolution of a `getJobStatus` call as seen by `pollJobStatus`:
either the response (its `success` flag and optional `data` payload), or a
thrown error such as a network failure. -/
inductive PollOutcome
  | response (success : Bool) (data : Option JobStatusResponse)
  | fetchFailure
deriving DecidableEq

/-- Which branch of `pollJobStatus` handled the outcome. -/
inductive PollBranch
  | completedWithResult
  | completedEmpty
  | failedBranch
  | cancelledBranch
  | keepPolling
  | noData
  | caughtError
deriving DecidableEq

/-- The modal's `pollJobStatus` handler: on a successful response it stores
the status and progress, then on `completed` clears the interval and either
enters the review step with the result or reports an empty result; on
`failed` and `cancelled` it clears the interval and reports the error; on
`pending` and `processing` it keeps polling; a thrown fetch error is caught
and changes nothing. Returns the new state and the branch taken. -/
def pollJobStatus (st : ClientState) (o : PollOutcome) :
    ClientState × PollBranch :=
  match o with
  | .fetchFailure => (st, .caughtError)
  | .response ok data =>
    match ok, data with
    | true, some status =>
      let st1 := { st with jobStatus := some status,
                           progress := status.progress }
      match status.status with
      | .completed =>
        let st2 := { st1 with pollingActive := false }
        match status.result with
        | some r =>
          ({ st2 with extractedData := some r,
                      editedData := r.contract_data,
                      step := .review },
           .completedWithResult)
        | none =>
          ({ st2 with errorMessage := "Результат обработки пуст",
                      step := .error },
           .completedEmpty)
      | .failed =>
        ({ st1 with pollingActive := false,
                    errorMessage :=
                      status.error.getD "Неизвестная ошибка при обработке",
                    step := .error },
         .failedBranch)
      | .cancelled =>
        ({ st1 with pollingActive := false,
                    errorMessage := "Обработка была отменена",
                    step := .error },
         .cancelledBranch)
      | .pending => (st1, .keepPolling)
      | .processing => (st1, .keepPolling)
    | _, _ => (st, .noData)

/-- The interval, in milliseconds, that `extractMutation.onSuccess` passes to
`setInterval` for the status polls. -/
def pollIntervalMs : Nat := 1000

/-- `extractMutation.onSuccess`: with a successful response carrying a job
id, it stores the id, enters the extracting step, resets progress and
installs the polling interval; otherwise it reports the response's message
(or a default) and enters the error step. -/
def extractOnSuccess (st : ClientState) (ok : Bool)
    (job_id : Option String) (message : Option String) : ClientState :=
  match ok, job_id with
  | true, some newJobId =>
    { st with jobId := some newJobId, step := .extracting, progress := 0,
              pollingActive := true }
  | _, _ =>
    { st with errorMessage := message.getD "Ошибка при запуске обработки",
              step := .error }

/-- Whether a poll outcome is a successful response whose status is
terminal. -/
def PollOutcome.isTerminalResponse : PollOutcome → Bool
  | .response true (some s) => s.status.isTerminal
  | _ => false

/-- The polling loop over a list of tick outcomes: at each tick a status
request goes out only while the interval is installed, and its outcome is
handled by `pollJobStatus`. Returns the final state and the number of status
requests issued. -/
def runPolls : ClientState → List PollOutcome → ClientState × Nat
  | st, [] => (st, 0)
  | st, o :: os =>
    if st.pollingActive then
      let next := runPolls (pollJobStatus st o).1 os
      (next.1, next.2 + 1)
    else
      runPolls st os

/-- The modal's `handleClose`: it requests cancellation of the current job
exactly when a job id is set and the last observed status is `processing`,
then clears the interval and resets the component state (the edited data is
not reset). Returns whether a cancel request was sent and the new state. -/
def handleClose (st : ClientState) : Bool × ClientState :=
  let cancelSent : Bool :=
    match st.jobId, st.jobStatus with
    | some _, some js => if js.status = .processing then true else false
    | _, _ => false
  (cancelSent,
   { st with file := none, step := .upload, extractedData := none,
             errorMessage := "", jobId := none, jobStatus := none,
             progress := 0, pollingActive := false })

/-- The lifecycle invariant of a Job Record: the result is present exactly in
the completed state, the error exactly in the failed state, progress stays
between 0 and 100, and a completed job's progress is 100. -/
def JobInv (j : JobRecord) : Prop :=
  (j.result.isSome = true ↔ j.status = .completed) ∧
  (j.error.isSome = true ↔ j.status = .failed) ∧
  (0 ≤ j.progress ∧ j.progress ≤ 100) ∧
  (j.status = .completed → j.progress = 100)

/-- The position of a status along the one-directional lifecycle. -/
def statusRank : JobStatusV → Nat
  | .pending => 0
  | .processing => 1
  | _ => 2

theorem initialJob_inv (id now : String) : JobInv (initialJob id now) := by
  refine ⟨?_, ?_, ?_, ?_⟩ <;> simp [initialJob]

theorem jobStep_inv {j j' : JobRecord} (h : JobStep j j') (hinv : JobInv j) :
    JobInv j' := by
  obtain ⟨h1, h2, h3, h4⟩ := hinv
  cases h with
  | claim t hp => refine ⟨?_, ?_, ?_, ?_⟩ <;> simp_all
  | progressUpdate p m hp h5 h6 =>
    refine ⟨?_, ?_, ?_, ?_⟩ <;> simp_all
    omega
  | success r t hp => refine ⟨?_, ?_, ?_, ?_⟩ <;> simp_all
  | failure e t hp => refine ⟨?_, ?_, ?_, ?_⟩ <;> simp_all
  | cancelPending t hp => refine ⟨?_, ?_, ?_, ?_⟩ <;> simp_all
  | cancelProcessing t hp hc => refine ⟨?_, ?_, ?_, ?_⟩ <;> simp_all
  | requestCancel hp => exact ⟨by simpa using h1, by simpa using h2, by simpa using h3, by simpa using h4⟩

theorem reachable_inv {j : JobRecord} (h : Reachable j) : JobInv j := by
  obtain ⟨id, now, hsteps⟩ := h
  induction hsteps with
  | refl => exact initialJob_inv id now
  | tail hab hbc ih => exact jobStep_inv hbc ih

theorem jobStep_rank {j j' : JobRecord} (h : JobStep j j') :
    statusRank j.status ≤ statusRank j'.status := by
  cases h <;> simp_all [statusRank]

theorem rtg_rank {j j' : JobRecord}
    (h : Relation.ReflTransGen JobStep j j') :
    statusRank j.status ≤ statusRank j'.status := by
  induction h with
  | refl => exact Nat.le_refl _
  | tail hab hbc ih => exact Nat.le_trans ih (jobStep_rank hbc)

theorem rank_one_processing {s : JobStatusV} (h : statusRank s = 1) :
    s = .processing := by
  cases s <;> simp_all [statusRank]

theorem no_step_of_terminal {j j' : JobRecord}
    (ht : j.status.isTerminal = true) : ¬ JobStep j j' := by
  intro h
  cases h <;> simp_all [JobStatusV.isTerminal]

theorem terminal_frozen {j j' : JobRecord} (ht : j.status.isTerminal = true)
    (h : Relation.ReflTransGen JobStep j j') : j' = j := by
  induction h with
  | refl => rfl
  | tail hab hbc ih => exact absurd (ih ▸ hbc) (no_step_of_terminal ht)

theorem jobStep_progress {j j' : JobRecord} (h : JobStep j j')
    (hp : j.status = .processing) (hp' : j'.status = .processing) :
    j.progress ≤ j'.progress := by
  cases h <;> simp_all

theorem rtg_progress_mono {j j' : JobRecord}
    (h : Relation.ReflTransGen JobStep j j') (hp : j.status = .processing) :
    j'.status = .processing → j.progress ≤ j'.progress := by
  induction h with
  | refl => exact fun _ => le_refl _
  | @tail b c hab hbc ih =>
    intro hc
    have hrb1 : 1 ≤ statusRank b.status := by
      have hr := rtg_rank hab
      rw [hp] at hr
      exact hr
    have hrb2 : statusRank b.status ≤ 1 := by
      have hr := jobStep_rank hbc
      rw [hc] at hr
      exact hr
    have hb : b.status = .processing :=
      rank_one_processing (Nat.le_antisymm hrb2 hrb1)
    exact le_trans (ih hb) (jobStep_progress hbc hb hc)

/-- C1: every job status value produced or consumed --- both the five-value
status union of the current API client and the four-value one of the legacy
client --- is among pending, processing, completed, failed, cancelled;
completed, failed and cancelled are exactly the terminal ones; and once a job
record has reached a terminal status, no later observation along the
lifecycle yields a different status. -/
theorem job_status_five_values_terminal_absorbing :
    (∀ s : JobStatusV, s = .pending ∨ s = .processing ∨ s = .completed ∨
        s = .failed ∨ s = .cancelled) ∧
    (∀ s : LegacyJobStatusV, s.toStatus = .pending ∨
        s.toStatus = .processing ∨ s.toStatus = .completed ∨
        s.toStatus = .failed) ∧
    (∀ s : JobStatusV, s.isTerminal = true ↔
        (s = .completed ∨ s = .failed ∨ s = .cancelled)) ∧
    (∀ j j' : JobRecord, j.status.isTerminal = true →
        Relation.ReflTransGen JobStep j j' → j'.status = j.status) := by
  refine ⟨?_, ?_, ?_, ?_⟩
  · intro s; cases s <;> simp
  · intro s; cases s <;> simp [LegacyJobStatusV.toStatus]
  · intro s; cases s <;> simp [JobStatusV.isTerminal]
  · intro j j' ht h
    rw [terminal_frozen ht h]

theorem job_status_terminal_witness :
    ({ initialJob "j" "t" with status := JobStatusV.completed } :
        JobRecord).status
      = ({ initialJob "j" "t" with status := JobStatusV.completed } :
        JobRecord).status :=
  job_status_five_values_terminal_absorbing.2.2.2 _ _ (by rfl)
    Relation.ReflTransGen.refl

/-- C3: in every reachable state of a job record, the result is present if
and only if the status is completed, and the error is present if and only if
the status is failed. -/
theorem result_error_present_iff_status :
    ∀ j : JobRecord, Reachable j →
      (j.result.isSome = true ↔ j.status = .completed) ∧
      (j.error.isSome = true ↔ j.status = .failed) := by
  intro j hr
  have h := reachable_inv hr
  exact ⟨h.1, h.2.1⟩

theorem result_error_present_witness :
    ((initialJob "j" "t").result.isSome = true ↔
        (initialJob "j" "t").status = .completed) ∧
    ((initialJob "j" "t").error.isSome = true ↔
        (initialJob "j" "t").status = .failed) :=
  result_error_present_iff_status (initialJob "j" "t")
    ⟨"j", "t", Relation.ReflTransGen.refl⟩

/-- C6: in every reachable state a job's progress is between 0 and 100, it
never decreases along the lifecycle while the status stays processing, and a
successfully completed job's progress is 100. -/
theorem progress_bounded_monotone_completed_full :
    (∀ j : JobRecord, Reachable j → 0 ≤ j.progress ∧ j.progress ≤ 100) ∧
    (∀ j : JobRecord, Reachable j → j.status = .completed →
        j.progress = 100) ∧
    (∀ j j' : JobRecord, Relation.ReflTransGen JobStep j j' →
        j.status = .processing → j'.status = .processing →
        j.progress ≤ j'.progress) := by
  refine ⟨?_, ?_, ?_⟩
  · intro j hr
    exact (reachable_inv hr).2.2.1
  · intro j hr hc
    exact (reachable_inv hr).2.2.2 hc
  · intro j j' h hp hp'
    exact rtg_progress_mono h hp hp'

theorem progress_bounds_witness :
    (0 ≤ (initialJob "j" "t0").progress ∧
        (initialJob "j" "t0").progress ≤ 100) ∧
    ({ { initialJob "j" "t0" with
          status := JobStatusV.processing, started_at := some "t1" } with
        status := JobStatusV.completed,
        result := some { contract_data := [] },
        progress := 100, completed_at := some "t2" } :
      JobRecord).progress = 100 ∧
    ({ initialJob "j" "t0" with
        status := JobStatusV.processing, started_at := some "t1" } :
      JobRecord).progress
      ≤ ({ initialJob "j" "t0" with
            status := JobStatusV.processing, started_at := some "t1" } :
          JobRecord).progress :=
  ⟨progress_bounded_monotone_completed_full.1 _
      ⟨"j", "t0", Relation.ReflTransGen.refl⟩,
   progress_bounded_monotone_completed_full.2.1 _
      ⟨"j", "t0",
        Relation.ReflTransGen.tail
          (Relation.ReflTransGen.tail Relation.ReflTransGen.refl
            (JobStep.claim _ "t1" rfl))
          (JobStep.success _ { contract_data := [] } "t2" rfl)⟩ rfl,
   progress_bounded_monotone_completed_full.2.2 _ _
      Relation.ReflTransGen.refl rfl rfl⟩

theorem get_update (s : Store) (id : String) (f : JobRecord → JobRecord) :
    (s.update id f).get id = (s.get id).map f := by
  induction s with
  | nil => rfl
  | cons kv rest ih =>
    obtain ⟨k, j⟩ := kv
    by_cases hk : k = id <;> simp [Store.update, Store.get, hk, ih]

/-- C4: cancelling a job whose status is already terminal yields the
`AlreadyTerminal` outcome and leaves the store unchanged; cancelling a
non-terminal job yields `ok` and sets its `cancelRequested` flag. -/
theorem cancel_terminal_noop_else_flags :
    ∀ (s : Store) (id : String) (j : JobRecord), s.get id = some j →
      (j.status.isTerminal = true →
        cancel s id = (CancelResult.alreadyTerminal, s)) ∧
      (j.status.isTerminal = false →
        (cancel s id).1 = CancelResult.ok ∧
        (cancel s id).2.get id = some { j with cancelRequested := true }) := by
  intro s id j hj
  constructor
  · intro ht
    simp [cancel, hj, ht]
  · intro ht
    constructor <;> simp [cancel, hj, ht, get_update]

theorem cancel_terminal_witness :
    (cancel [("a", { initialJob "a" "t" with status := JobStatusV.completed })]
        "a"
      = (CancelResult.alreadyTerminal,
         [("a", { initialJob "a" "t" with
                    status := JobStatusV.completed })])) ∧
    ((cancel [("b", initialJob "b" "t")] "b").1 = CancelResult.ok ∧
     (cancel [("b", initialJob "b" "t")] "b").2.get "b"
       = some { initialJob "b" "t" with cancelRequested := true }) :=
  ⟨(cancel_terminal_noop_else_flags
      [("a", { initialJob "a" "t" with status := JobStatusV.completed })] "a"
      { initialJob "a" "t" with status := JobStatusV.completed }
      (by decide)).1 (by decide),
   (cancel_terminal_noop_else_flags [("b", initialJob "b" "t")] "b"
      (initialJob "b" "t") (by decide)).2 (by decide)⟩

/-- C5: Submit rejects an empty document or one above the size ceiling with
`InvalidInput`, leaving the manager state (and so the set of jobs) untouched;
an accepted document yields a fresh job id at once, with the new record
stored in the pending state and the extraction engine not yet invoked. -/
theorem submit_validates_and_returns_immediately :
    (∀ (cfg : SubmitConfig) (st : ManagerState) (doc : List Nat)
        (now : String), (doc = [] ∨ cfg.maxSize < doc.length) →
        submit cfg st doc now = (Except.error SubmitError.invalidInput, st)) ∧
    (∀ (cfg : SubmitConfig) (st : ManagerState) (doc : List Nat)
        (now : String), doc ≠ [] → doc.length ≤ cfg.maxSize →
        st.store.length < cfg.maxJobs →
        (submit cfg st doc now).1 = Except.ok (freshId st.nextId) ∧
        (submit cfg st doc now).2.store.get (freshId st.nextId)
          = some (initialJob (freshId st.nextId) now) ∧
        (initialJob (freshId st.nextId) now).status = JobStatusV.pending ∧
        (submit cfg st doc now).2.engineCalls = st.engineCalls) := by
  constructor
  · intro cfg st doc now h
    rcases h with h | h
    · subst h
      simp [submit]
    · simp [submit, h]
  · intro cfg st doc now h0 hsize hcap
    have hvalid : ¬ (doc.length = 0 ∨ cfg.maxSize < doc.length) := by
      push_neg
      exact ⟨by simpa using h0, hsize⟩
    have hvalid2 : ¬ (doc = [] ∨ cfg.maxSize < doc.length) := by
      push_neg
      exact ⟨h0, hsize⟩
    have hroom : ¬ cfg.maxJobs ≤ st.store.length := not_le.2 hcap
    refine ⟨?_, ?_, rfl, ?_⟩ <;>
      simp [submit, hvalid, hvalid2, hroom, Store.get]

theorem submit_validates_witness :
    (submit { maxSize := 10, maxJobs := 5 }
        { store := [], nextId := 0, engineCalls := 0 } [] "t"
      = (Except.error SubmitError.invalidInput,
         { store := [], nextId := 0, engineCalls := 0 })) ∧
    ((submit { maxSize := 10, maxJobs := 5 }
        { store := [], nextId := 0, engineCalls := 0 } [1, 2] "t").1
      = Except.ok (freshId 0) ∧
     (submit { maxSize := 10, maxJobs := 5 }
        { store := [], nextId := 0, engineCalls := 0 } [1, 2] "t").2.store.get
          (freshId 0)
      = some (initialJob (freshId 0) "t") ∧
     (initialJob (freshId 0) "t").status = JobStatusV.pending ∧
     (submit { maxSize := 10, maxJobs := 5 }
        { store := [], nextId := 0, engineCalls := 0 } [1, 2] "t").2.engineCalls
      = 0) :=
  ⟨submit_validates_and_returns_immediately.1 _ _ _ _ (Or.inl rfl),
   submit_validates_and_returns_immediately.2 _ _ _ _ (by decide) (by decide)
     (by decide)⟩

/-- C7 counterexample: the response record type the client declares for the
get-status call does not carry exactly the six fields the claim enumerates
--- it also declares the optional created_at, started_at and completed_at
fields. -/
theorem status_response_fields_exceed_spec_list :
    jobStatusResponseFields ≠ specStatusFields := by
  decide

/-- C7 (amended): the get-status response record carries the fields job_id,
status, progress and message, optionally result and error, and additionally
the optional created_at, started_at and completed_at fields; a known id
yields the record's response and an unknown or expired id yields a not-found
outcome rather than a record. -/
theorem getStatus_shape_and_notFound :
    jobStatusResponseFields
      = specStatusFields ++ ["created_at", "started_at", "completed_at"] ∧
    (∀ (s : Store) (id : String), s.get id = none → getStatus s id = none) ∧
    (∀ (s : Store) (id : String) (j : JobRecord), s.get id = some j →
        getStatus s id = some (toResponse j)) := by
  refine ⟨by decide, ?_, ?_⟩
  · intro s id h
    simp [getStatus, h]
  · intro s id j h
    simp [getStatus, h]

theorem getStatus_shape_witness :
    getStatus [] "missing" = none ∧
    getStatus [("a", initialJob "a" "t")] "a"
      = some (toResponse (initialJob "a" "t")) :=
  ⟨getStatus_shape_and_notFound.2.1 [] "missing" rfl,
   getStatus_shape_and_notFound.2.2 [("a", initialJob "a" "t")] "a"
     (initialJob "a" "t") (by decide)⟩

/-- C2: the client's polling interval is the fixed 1000 milliseconds; a
successful extract response installs the interval; processing a poll
response whose status is terminal uninstalls it; and with the interval
uninstalled the polling loop issues no further status requests. -/
theorem client_polls_every_second_until_terminal :
    pollIntervalMs = 1000 ∧
    (∀ (st : ClientState) (id : String) (m : Option String),
        (extractOnSuccess st true (some id) m).pollingActive = true) ∧
    (∀ (st : ClientState) (o : PollOutcome), o.isTerminalResponse = true →
        ((pollJobStatus st o).1).pollingActive = false) ∧
    (∀ (st : ClientState) (os : List PollOutcome),
        st.pollingActive = false → (runPolls st os).2 = 0) := by
  refine ⟨rfl, ?_, ?_, ?_⟩
  · intro st id m
    rfl
  · intro st o ho
    cases o with
    | fetchFailure => simp [PollOutcome.isTerminalResponse] at ho
    | response ok data =>
      cases ok with
      | false => simp [PollOutcome.isTerminalResponse] at ho
      | true =>
        cases data with
        | none => simp [PollOutcome.isTerminalResponse] at ho
        | some s =>
          have hterm : s.status.isTerminal = true := ho
          cases hs : s.status with
          | pending =>
            rw [hs] at hterm
            simp [JobStatusV.isTerminal] at hterm
          | processing =>
            rw [hs] at hterm
            simp [JobStatusV.isTerminal] at hterm
          | completed =>
            cases hr : s.result with
            | some r => simp [pollJobStatus, hs, hr]
            | none => simp [pollJobStatus, hs, hr]
          | failed => simp [pollJobStatus, hs]
          | cancelled => simp [pollJobStatus, hs]
  · intro st os h
    induction os with
    | nil => rfl
    | cons o os ih => simpa [runPolls, h] using ih

theorem client_polls_witness :
    pollIntervalMs = 1000 ∧
    (extractOnSuccess initialClientState true (some "job-1")
        none).pollingActive = true ∧
    ((pollJobStatus
        { initialClientState with step := .extracting, pollingActive := true }
        (PollOutcome.response true
          (some { job_id := "job-1", status := JobStatusV.completed,
                  progress := 100, message := "",
                  result := some { contract_data := [] }, error := none,
                  created_at := none, started_at := none,
                  completed_at := none }))).1).pollingActive = false ∧
    (runPolls initialClientState [PollOutcome.fetchFailure]).2 = 0 :=
  ⟨client_polls_every_second_until_terminal.1,
   client_polls_every_second_until_terminal.2.1 initialClientState "job-1"
     none,
   client_polls_every_second_until_terminal.2.2.1 _ _ (by decide),
   client_polls_every_second_until_terminal.2.2.2 initialClientState
     [PollOutcome.fetchFailure] rfl⟩

/-- C8: a thrown status-fetch error is caught by `pollJobStatus` and leaves
the client state --- in particular the installed polling interval ---
untouched, so with the interval still installed the loop issues the next
request exactly as before the failure. -/
theorem fetch_error_keeps_polling :
    (∀ st : ClientState,
        pollJobStatus st PollOutcome.fetchFailure
          = (st, PollBranch.caughtError)) ∧
    (∀ (st : ClientState) (os : List PollOutcome), st.pollingActive = true →
        runPolls st (PollOutcome.fetchFailure :: os)
          = ((runPolls st os).1, (runPolls st os).2 + 1)) := by
  constructor
  · intro st
    rfl
  · intro st os h
    simp [runPolls, h, pollJobStatus]

theorem fetch_error_keeps_polling_witness :
    runPolls { initialClientState with pollingActive := true }
        [PollOutcome.fetchFailure]
      = ((runPolls { initialClientState with pollingActive := true } []).1,
         (runPolls { initialClientState with pollingActive := true } []).2
           + 1) :=
  fetch_error_keeps_polling.2
    { initialClientState with pollingActive := true } [] rfl

/-- C9: `handleClose` sends a cancel request exactly when a job id is set and
the last observed status is `processing`; closing with the job still pending,
or before any status response has been stored, or with no job id, sends no
cancel request. -/
theorem close_cancels_only_processing :
    (∀ (st : ClientState) (js : JobStatusResponse),
        st.jobId.isSome = true → st.jobStatus = some js →
        js.status = .processing → (handleClose st).1 = true) ∧
    (∀ (st : ClientState) (js : JobStatusResponse),
        st.jobStatus = some js → js.status = .pending →
        (handleClose st).1 = false) ∧
    (∀ st : ClientState, st.jobStatus = none → (handleClose st).1 = false) ∧
    (∀ st : ClientState, st.jobId = none → (handleClose st).1 = false) ∧
    (∀ st : ClientState, (handleClose st).1 = true →
        st.jobId.isSome = true ∧
        ∃ js, st.jobStatus = some js ∧ js.status = .processing) := by
  refine ⟨?_, ?_, ?_, ?_, ?_⟩
  · intro st js hid hjs hp
    obtain ⟨i, hi⟩ := Option.isSome_iff_exists.1 hid
    simp [handleClose, hi, hjs, hp]
  · intro st js hjs hp
    cases hi : st.jobId <;> simp [handleClose, hi, hjs, hp]
  · intro st hjs
    cases hi : st.jobId <;> simp [handleClose, hi, hjs]
  · intro st hi
    cases hjs : st.jobStatus <;> simp [handleClose, hi, hjs]
  · intro st h
    cases hi : st.jobId with
    | none => simp [handleClose, hi] at h
    | some i =>
      cases hjs : st.jobStatus with
      | none => simp [handleClose, hi, hjs] at h
      | some js =>
        by_cases hp : js.status = .processing
        · exact ⟨by simp [hi], js, rfl, hp⟩
        · simp [handleClose, hi, hjs, hp] at h

theorem close_cancels_witness :
    (handleClose
        { initialClientState with
            step := .extracting, jobId := some "job-1",
            jobStatus := some { job_id := "job-1",
                                status := JobStatusV.processing,
                                progress := 40, message := "",
                                result := none, error := none,
                                created_at := none, started_at := none,
                                completed_at := none },
            pollingActive := true }).1 = true :=
  close_cancels_only_processing.1 _
    { job_id := "job-1", status := JobStatusV.processing, progress := 40,
      message := "", result := none, error := none, created_at := none,
      started_at := none, completed_at := none } rfl rfl rfl

/-- C10: under the result-iff-completed invariant --- every successful
response with status completed carries a result --- `pollJobStatus` never
takes the branch that reports an empty extraction result, and from the
extracting step the review step is entered exactly when a completed status is
observed. -/
theorem empty_result_branch_unreachable :
    ∀ (st : ClientState) (status : JobStatusResponse),
      st.step = .extracting →
      (status.status = .completed → status.result.isSome = true) →
      (pollJobStatus st (PollOutcome.response true (some status))).2
        ≠ PollBranch.completedEmpty ∧
      ((pollJobStatus st (PollOutcome.response true (some status))).1.step
          = UploadStep.review ↔ status.status = .completed) := by
  intro st status hstep hinv
  cases hs : status.status with
  | completed =>
    obtain ⟨r, hr⟩ := Option.isSome_iff_exists.1 (hinv hs)
    constructor <;> simp [pollJobStatus, hs, hr]
  | pending => constructor <;> simp [pollJobStatus, hs, hstep]
  | processing => constructor <;> simp [pollJobStatus, hs, hstep]
  | failed => constructor <;> simp [pollJobStatus, hs]
  | cancelled => constructor <;> simp [pollJobStatus, hs]

theorem empty_result_witness :
    (pollJobStatus
        { initialClientState with step := .extracting, pollingActive := true }
        (PollOutcome.response true
          (some { job_id := "job-1", status := JobStatusV.completed,
                  progress := 100, message := "",
                  result := some { contract_data := [("number", "001")] },
                  error := none, created_at := none, started_at := none,
                  completed_at := none }))).2
      ≠ PollBranch.completedEmpty ∧
    ((pollJobStatus
        { initialClientState with step := .extracting, pollingActive := true }
        (PollOutcome.response true
          (some { job_id := "job-1", status := JobStatusV.completed,
                  progress := 100, message := "",
                  result := some { contract_data := [("number", "001")] },
                  error := none, created_at := none, started_at := none,
                  completed_at := none }))).1.step = UploadStep.review ↔
      ({ job_id := "job-1", status := JobStatusV.completed, progress := 100,
         message := "",
         result := some { contract_data := [("number", "001")] },
         error := none, created_at := none, started_at := none,
         completed_at := none } : JobStatusResponse).status
        = JobStatusV.completed) :=
  empty_result_branch_unreachable _ _ rfl (fun _ => rfl)

end DocFlow
